import Mathlib

/-!
Shallow embedding of `libs/surfaceflinger/MessageQueue.cpp`.

The source implements a timed, priority-ordered message queue for a single
consumer thread: `MessageList::insert`, `MessageQueue::waitMessage`,
`MessageQueue::postMessage` / `queueMessage`, and `MessageQueue::invalidate`.

Embedding conventions:

* `nsecs_t` (signed 64-bit nanoseconds) is modelled as `Int`; the properties
  verified here do not concern 64-bit wraparound.
* `systemTime()` is modelled by an explicit clock oracle `clock : Nat → Int`
  indexed by a call counter that is threaded through the execution: the k-th
  call of `systemTime()` inside a `waitMessage` run reads `clock k`.  The
  clock is arbitrary (in particular it need not be monotone unless a theorem
  assumes it).
* The mutex is modelled by atomicity of the step function: one iteration of
  the inner `while (true)` loop (source lines 70–121) is one application of
  `MessageQueue.waitStep`, performed on a consistent snapshot of the state.
* `mCondition.wait` cannot be given a return time in a pure model; instead a
  step that reaches a wait is recorded as `sleepTimed` / `sleepForever` /
  `spinNoWait` and the driver re-enters the loop (this also covers spurious
  wakeups).  A fuel-indexed driver returning `none` for every fuel models a
  call that never returns.
* The scenarios modelled here have no concurrent producer activity during a
  `waitMessage` call: the queue state changes only through the consumer's own
  steps, matching the claims' "no post or invalidate occurring during the
  call" conditions.
* `sp<MessageBase>` handles are modelled as plain `MessageBase` values; a
  null handle has no counterpart (dereferencing a null `sp` in the source is
  a crash, not a status).
* The per-message virtual `handler()` is an external capability; it is
  modelled as a pure oracle `handler : MessageBase → Bool` giving the value
  `again` returned for each message.
-/

namespace android

/-- Type `nsecs_t` from `utils/Timers.h`: signed 64-bit nanosecond count. -/
abbrev nsecs_t := Int

/-- Type `status_t`: signed 32-bit status code. -/
abbrev status_t := Int

/-- The success status `NO_ERROR` (0). -/
def NO_ERROR : status_t := 0

/-- Modelled from the spec: `MessageQueue.h` (the class declaration, with the
reserved `INVALIDATE` tag of the synthetic message) is not under `src/`; the
spec only requires "a reserved `what` value".  The concrete numeral is
irrelevant to every property proved here. -/
def INVALIDATE : Nat := 1

/-- Structure `MessageBase` (declared in `MessageQueue.h`): the scheduled unit, with a
`what` tag and an absolute dispatch time `when`.  The handler capability is
kept outside the structure (it is an oracle of the execution, see the file
header). -/
structure MessageBase where
  what : Nat
  when : nsecs_t
deriving DecidableEq, Repr

/-- Function `MessageList::insert` (source lines 32–44): scan from the head and place
the node before the first element `cur` with `*node < **cur`; if no such
element exists, put the node at the end.

Modelled from the spec where the source leaves `src/`:
`MessageBase::operator<` is declared in `MessageQueue.h` (not under `src/`);
per the spec it is "strict less-than on `when`".  The underlying `LIST`
container (`utils/List.h`, not under `src/`) provides the iterators and
`insert`-before-position used by the loop, and the final
`mList.insert(++end, node)`; per the spec this last step is "appending at the
end when no such `e` exists". -/
def MessageList.insert (node : MessageBase) : List MessageBase → List MessageBase
  | [] => [node]
  | cur :: rest =>
    if node.when < cur.when then node :: cur :: rest
    else cur :: MessageList.insert node rest

/-- The state of a `MessageQueue` protected by `mLock`: the ordered message
list `mMessages`, the invalidate latch `mInvalidate`, and the pre-allocated
synthetic message `mInvalidateMessage` (whose `when` field is mutable state,
rewritten at each invalidate delivery).  The condition variable holds no
state (signals are not persisted), so it has no field here. -/
structure MessageQueue where
  mMessages : List MessageBase
  mInvalidate : Bool
  mInvalidateMessage : MessageBase
deriving DecidableEq, Repr

/-- The constructor `MessageQueue::MessageQueue()` (source lines 53–57):
latch clear, empty list, synthetic message tagged `INVALIDATE`.  Modelled
from the spec: the `MessageBase` constructor is in `MessageQueue.h` (not
under `src/`); the initial `when` is irrelevant (it is overwritten before
every delivery) and is taken to be 0. -/
def MessageQueue.init : MessageQueue :=
  { mMessages := [], mInvalidate := false,
    mInvalidateMessage := { what := INVALIDATE, when := 0 } }

/-- Outcome of one iteration of the inner `while (true)` loop of
`waitMessage` (source lines 70–121), taken under the mutex:

* `deliver result st` — the loop `break`s with a message selected for
  delivery (`result` non-null), leaving queue state `st`;
* `timedOut st` — the loop `break`s with `result = 0` (timeout reported);
* `sleepTimed t st` — the iteration reaches `mCondition.wait(mLock, t)`
  (timed wait until absolute time `t`);
* `spinNoWait st` — `nextEventTime` was clamped to exactly 0, so neither
  `break` nor any `mCondition.wait` call is reached and the loop re-enters
  immediately;
* `sleepForever st` — the iteration reaches the unbounded
  `mCondition.wait(mLock)`. -/
inductive WaitOutcome where
  | deliver (result : MessageBase) (st : MessageQueue)
  | timedOut (st : MessageQueue)
  | sleepTimed (nextEventTime : nsecs_t) (st : MessageQueue)
  | spinNoWait (st : MessageQueue)
  | sleepForever (st : MessageQueue)
deriving DecidableEq, Repr

/-- One iteration of the inner loop of `MessageQueue::waitMessage` (source
lines 70–121) with `now` the value read from `systemTime()` at line 72.
`result` is null on entry to every iteration (it is null at the call's start,
reset at line 100 on the only non-`break` path that assigns it, and reset at
line 132 before the outer loop repeats).

Line-by-line: lines 76–81 (invalidate latch preempts everything: clear the
latch, stamp the synthetic message with `now`, deliver it); lines 83–101
(head selection: deliver a due head, report timeout when `timeoutTime < now`,
otherwise remember `nextEventTime := head.when`); lines 103–107 (clamp
`nextEventTime` to `timeoutTime`); lines 109–121 (choose the wait: timed when
`nextEventTime > 0`, none at all when it is exactly 0, unbounded when it is
negative — in particular the empty-list case keeps `nextEventTime = -1` and
waits unbounded). -/
def MessageQueue.waitStep (st : MessageQueue)
    (timeout timeoutTime now : nsecs_t) : WaitOutcome :=
  if st.mInvalidate then
    let m := { st.mInvalidateMessage with when := now }
    .deliver m { st with mInvalidate := false, mInvalidateMessage := m }
  else
    match st.mMessages with
    | [] => .sleepForever st
    | result :: rest =>
      if result.when ≤ now then
        .deliver result { st with mMessages := rest }
      else if 0 ≤ timeout ∧ timeoutTime < now then
        .timedOut st
      else
        let nextEventTime := result.when
        let nextEventTime :=
          if 0 ≤ timeout ∧ 0 < nextEventTime then
            if timeoutTime < nextEventTime then timeoutTime else nextEventTime
          else nextEventTime
        if 0 ≤ nextEventTime then
          if 0 < nextEventTime then .sleepTimed nextEventTime st
          else .spinNoWait st
        else .sleepForever st

/-- Driver of the inner `while (true)` loop: run `waitStep` repeatedly, the
k-th `systemTime()` call reading `clock k`.  A `deliver`/`timedOut` outcome
is the loop's `break`; every other outcome re-enters the loop (a timed wait
elapsing, a spin, or a spurious wakeup from an unbounded wait — with no
producer there is no signal).  `none` means the loop has not exited within
`fuel` iterations; a result of `none` for **every** fuel models an inner loop
that never exits, i.e. a `waitMessage` call that never returns. -/
def MessageQueue.waitInner (timeout timeoutTime : nsecs_t)
    (clock : Nat → nsecs_t) :
    Nat → MessageQueue → Nat → Option (Option MessageBase × MessageQueue × Nat)
  | 0, _, _ => none
  | fuel+1, st, k =>
    match st.waitStep timeout timeoutTime (clock k) with
    | .deliver m st' => some (some m, st', k+1)
    | .timedOut st' => some (none, st', k+1)
    | .sleepTimed _ st' => MessageQueue.waitInner timeout timeoutTime clock fuel st' (k+1)
    | .spinNoWait st' => MessageQueue.waitInner timeout timeoutTime clock fuel st' (k+1)
    | .sleepForever st' => MessageQueue.waitInner timeout timeoutTime clock fuel st' (k+1)

/-- Function `MessageQueue::waitMessage` (source lines 63–138): the outer `do … while
(again)` loop.  Each outer iteration first evaluates
`timeoutTime = systemTime() + timeout` (line 69 — note that this line is
**inside** the `do` loop, so `timeoutTime` is recomputed on every re-dispatch
iteration), then runs the inner loop; on `result == 0` it returns null to the
caller (line 125–126), otherwise it calls `result->handler()` (line 128) and
either returns `result` (handler returned `false`) or drops the reference and
repeats (handler returned `true`, lines 129–135).

Returns `some (result?, st, k)` — the value returned to the caller, the final
queue state and clock counter — or `none` when the call has not returned
within the given fuels (inner iterations per outer round, outer rounds). -/
def MessageQueue.waitMessage (handler : MessageBase → Bool)
    (clock : Nat → nsecs_t) (timeout : nsecs_t) (innerFuel : Nat) :
    MessageQueue → Nat → Nat → Option (Option MessageBase × MessageQueue × Nat)
  | _, _, 0 => none
  | st, k, fuel+1 =>
    match MessageQueue.waitInner timeout (clock k + timeout) clock innerFuel st (k+1) with
    | none => none
    | some (none, st', k') => some (none, st', k')
    | some (some result, st', k') =>
      if handler result then
        MessageQueue.waitMessage handler clock timeout innerFuel st' k' fuel
      else
        some (some result, st', k')

/-- Function `MessageQueue::queueMessage` (source lines 153–165): under the mutex, set
`message->when = systemTime() + relTime` (`now` models that `systemTime()`
read), insert into `mMessages`, signal the condition variable (stateless, not
recorded), and return `NO_ERROR` unconditionally.  `flags` is accepted and
ignored, as in the source. -/
def MessageQueue.queueMessage (st : MessageQueue) (message : MessageBase)
    (relTime : nsecs_t) (flags : Nat) (now : nsecs_t) :
    MessageQueue × status_t :=
  let message := { message with when := now + relTime }
  ({ st with mMessages := MessageList.insert message st.mMessages }, NO_ERROR)

/-- Function `MessageQueue::postMessage` (source lines 140–144): delegates to
`queueMessage`. -/
def MessageQueue.postMessage (st : MessageQueue) (message : MessageBase)
    (relTime : nsecs_t) (flags : Nat) (now : nsecs_t) :
    MessageQueue × status_t :=
  MessageQueue.queueMessage st message relTime flags now

/-- Function `MessageQueue::invalidate` (source lines 146–151): under the mutex, set
the latch, signal the condition variable (stateless, not recorded), return
`NO_ERROR`. -/
def MessageQueue.invalidate (st : MessageQueue) : MessageQueue × status_t :=
  ({ st with mInvalidate := true }, NO_ERROR)

/-- Follows the spec's words, for comparison with
`MessageQueue.waitMessage`: "Compute `deadline := now + timeout` once at
entry" — the outer re-dispatch loop with a deadline fixed for the whole call.
This is the loop body with `timeoutTime` a parameter instead of being
recomputed each round. -/
def MessageQueue.waitOuterOnce (handler : MessageBase → Bool)
    (clock : Nat → nsecs_t) (timeout timeoutTime : nsecs_t) (innerFuel : Nat) :
    MessageQueue → Nat → Nat → Option (Option MessageBase × MessageQueue × Nat)
  | _, _, 0 => none
  | st, k, fuel+1 =>
    match MessageQueue.waitInner timeout timeoutTime clock innerFuel st k with
    | none => none
    | some (none, st', k') => some (none, st', k')
    | some (some result, st', k') =>
      if handler result then
        MessageQueue.waitOuterOnce handler clock timeout timeoutTime innerFuel st' k' fuel
      else
        some (some result, st', k')

/-- Follows the spec's words, for comparison with
`MessageQueue.waitMessage`: the whole call with the deadline
`clock k + timeout` computed exactly once at entry and never recomputed on
re-dispatch. -/
def MessageQueue.waitMessageDeadlineOnce (handler : MessageBase → Bool)
    (clock : Nat → nsecs_t) (timeout : nsecs_t) (innerFuel : Nat)
    (st : MessageQueue) (k : Nat) (fuel : Nat) :
    Option (Option MessageBase × MessageQueue × Nat) :=
  MessageQueue.waitOuterOnce handler clock timeout (clock k + timeout) innerFuel st (k+1) fuel

/-! ### Concrete execution scenario used by several theorems

A `waitMessage(10)` call entered at time 100 on a queue holding a message
due at 0 (its handler returns `again = true`) and a message due at 206
(handler returns `false`).  Clock readings, in call order: 100 (outer entry,
line 69), 100 (inner, delivers the first message), 200 (outer re-entry,
line 69 again), 205 (inner, head not yet due → timed wait), 207 (inner,
delivers the second message). -/

/-- Clock oracle for the re-dispatch scenario. -/
def redispatchClock : Nat → nsecs_t :=
  fun k => ([100, 100, 200, 205, 207] : List Int).getD k 300

/-- Handler oracle for the re-dispatch scenario: `again = true` exactly for
the message tagged 7. -/
def redispatchHandler : MessageBase → Bool := fun m => m.what == 7

/-- Initial queue of the re-dispatch scenario. -/
def redispatchQueue : MessageQueue :=
  { mMessages := [{ what := 7, when := 0 }, { what := 8, when := 206 }],
    mInvalidate := false,
    mInvalidateMessage := { what := INVALIDATE, when := 0 } }

/-! ### Helper lemmas -/

/-- Membership in the list produced by `MessageList.insert`. -/
theorem MessageList.mem_insert (node b : MessageBase) :
    ∀ l : List MessageBase, b ∈ MessageList.insert node l ↔ b = node ∨ b ∈ l
  | [] => by simp [MessageList.insert]
  | cur :: rest => by
    by_cases h : node.when < cur.when
    · simp [MessageList.insert, h]
    · simp [MessageList.insert, h, MessageList.mem_insert node b rest]
      tauto

/-- With an empty message list and a clear latch, every iteration of the
inner loop reaches the unbounded `mCondition.wait(mLock)` (the timeout check
of line 94 is guarded by `result != 0`, and `nextEventTime` stays `-1`), so
the inner loop never exits, for any fuel and any timeout. -/
theorem waitInner_empty_none (timeout timeoutTime : nsecs_t)
    (clock : Nat → nsecs_t) (inv : MessageBase) :
    ∀ (fuel k : Nat), MessageQueue.waitInner timeout timeoutTime clock fuel
      { mMessages := [], mInvalidate := false, mInvalidateMessage := inv } k = none := by
  intro fuel
  induction fuel with
  | zero => intro k; rfl
  | succ n ih =>
    intro k
    simpa [MessageQueue.waitInner, MessageQueue.waitStep] using ih (k+1)

/-- Lemma: `MessageList.insert` places the node exactly where the claim says: after
the longest prefix of elements `e` with `e.when ≤ node.when` (that is,
immediately before the first element that the node compares strictly below),
for an arbitrary list. -/
theorem MessageList.insert_eq_takeWhile (node : MessageBase) :
    ∀ l : List MessageBase,
      MessageList.insert node l =
        l.takeWhile (fun e => decide (e.when ≤ node.when)) ++
          node :: l.dropWhile (fun e => decide (e.when ≤ node.when))
  | [] => by simp [MessageList.insert]
  | cur :: rest => by
    by_cases h : node.when < cur.when
    · have hc : ¬ cur.when ≤ node.when := not_le.mpr h
      simp [MessageList.insert, h, List.takeWhile_cons, List.dropWhile_cons, hc]
    · have hc : cur.when ≤ node.when := le_of_not_lt h
      simp [MessageList.insert, h, List.takeWhile_cons, List.dropWhile_cons, hc,
        MessageList.insert_eq_takeWhile node rest]

/-- Lemma: `MessageList.insert` preserves sortedness by `when`. -/
theorem MessageList.insert_pairwise (node : MessageBase) :
    ∀ l : List MessageBase,
      l.Pairwise (fun a b => a.when ≤ b.when) →
      (MessageList.insert node l).Pairwise (fun a b => a.when ≤ b.when)
  | [], _ => by simp [MessageList.insert]
  | cur :: rest, hs => by
    rw [List.pairwise_cons] at hs
    obtain ⟨hcur, hrest⟩ := hs
    by_cases h : node.when < cur.when
    · rw [MessageList.insert, if_pos h, List.pairwise_cons]
      refine ⟨?_, List.pairwise_cons.mpr ⟨hcur, hrest⟩⟩
      intro b hb
      rcases List.mem_cons.mp hb with hb | hb
      · subst hb; exact le_of_lt h
      · exact le_trans (le_of_lt h) (hcur b hb)
    · rw [MessageList.insert, if_neg h, List.pairwise_cons]
      refine ⟨?_, MessageList.insert_pairwise node rest hrest⟩
      intro b hb
      rcases (MessageList.mem_insert node b rest).mp hb with hb | hb
      · subst hb; exact le_of_not_lt h
      · exact hcur b hb

/-- Setting the invalidate latch is idempotent on the queue state: `N ≥ 1`
consecutive `invalidate` calls leave the same state as one. -/
theorem invalidate_state_iterate (st : MessageQueue) :
    ∀ N : Nat, 1 ≤ N →
      (fun s => (MessageQueue.invalidate s).1)^[N] st = (MessageQueue.invalidate st).1 := by
  intro N
  induction N with
  | zero => omega
  | succ n ih =>
    intro _
    rcases Nat.eq_zero_or_pos n with h0 | hpos
    · subst h0; rfl
    · rw [Function.iterate_succ_apply', ih hpos]; rfl

/-! ### Claim theorems -/

/-- Claim C1 (code bug, the theorem evaluates the code at the failing
configuration): a `waitMessage(timeout)` call entered with an empty message
list and a clear invalidate latch, with no post or invalidate occurring
during the call, never returns at all — for every fuel, every clock, every
handler and every `timeout`, including every `timeout ≥ 0`.  The claimed
behaviour (return nothing once `timeout` has elapsed) is unreachable: with an
empty list `result` stays null, so the timeout test of line 94 is never
evaluated and `nextEventTime` stays `-1`, which sends every iteration into
the unbounded `mCondition.wait(mLock)` of line 120. -/
theorem waitMessage_emptyQueue_never_returns (handler : MessageBase → Bool)
    (clock : Nat → nsecs_t) (timeout : nsecs_t) (inv : MessageBase)
    (innerFuel fuel k : Nat) :
    MessageQueue.waitMessage handler clock timeout innerFuel
      { mMessages := [], mInvalidate := false, mInvalidateMessage := inv } k fuel
      = none := by
  cases fuel with
  | zero => rfl
  | succ n =>
    simp [MessageQueue.waitMessage, waitInner_empty_none]

/-- Claim C2 (code bug, the theorem evaluates the code at the failing
configuration): `waitMessage(0)` on an empty message list with a clear
invalidate latch is not a non-blocking probe — it never returns, for every
fuel: the empty-list path reaches the unbounded `mCondition.wait(mLock)`
exactly as in the general case, so the zero timeout is never consulted. -/
theorem waitMessage_zero_timeout_emptyQueue_blocks (handler : MessageBase → Bool)
    (clock : Nat → nsecs_t) (inv : MessageBase) (innerFuel fuel k : Nat) :
    MessageQueue.waitMessage handler clock 0 innerFuel
      { mMessages := [], mInvalidate := false, mInvalidateMessage := inv } k fuel
      = none := by
  cases fuel with
  | zero => rfl
  | succ n =>
    simp [MessageQueue.waitMessage, waitInner_empty_none]

/-- Claim C4, counterexample: posting with `relativeDelay = -5` at `now = 100`
stores the message with `when = 95`, strictly before `now` (so the delay is
not treated as zero — that would give `when = 100`) and returns `NO_ERROR`
(so the call is not rejected either). -/
theorem queueMessage_negative_delay_cex :
    (MessageQueue.queueMessage MessageQueue.init { what := 7, when := 0 }
        (-5) 0 100).1.mMessages = [{ what := 7, when := 95 }] ∧
    (95 : nsecs_t) < 100 ∧ ((95 : nsecs_t) = 100 → False) ∧
    (MessageQueue.queueMessage MessageQueue.init { what := 7, when := 0 }
        (-5) 0 100).2 = NO_ERROR := by
  refine ⟨rfl, by decide, by decide, rfl⟩

/-- Claim C4 as amended: for every negative `relativeDelay`, `queueMessage`
accepts the call with `NO_ERROR` and stores the message with
`when = now + relativeDelay`, a time strictly before `now`; negative delays
are neither clamped to zero nor rejected. -/
theorem queueMessage_negative_delay_schedules_past (st : MessageQueue)
    (message : MessageBase) (relTime : nsecs_t) (flags : Nat) (now : nsecs_t)
    (h : relTime < 0) :
    { message with when := now + relTime }
        ∈ (MessageQueue.queueMessage st message relTime flags now).1.mMessages ∧
    now + relTime < now ∧
    (MessageQueue.queueMessage st message relTime flags now).2 = NO_ERROR := by
  refine ⟨?_, ?_, rfl⟩
  · exact (MessageList.mem_insert _ _ _).mpr (Or.inl rfl)
  · have : now + relTime < now + 0 := by exact add_lt_add_left h now
    simpa using this

/-- Witness for `queueMessage_negative_delay_schedules_past` at the concrete
input `relTime = -5`, `now = 100` on the freshly constructed queue. -/
theorem queueMessage_negative_delay_schedules_past_witness :
    (-5 : nsecs_t) < 0 ∧
    ({ what := 7, when := 100 + (-5) } ∈ (MessageQueue.queueMessage
        MessageQueue.init { what := 7, when := 0 } (-5) 3 100).1.mMessages ∧
      (100 : nsecs_t) + (-5) < 100 ∧
      (MessageQueue.queueMessage MessageQueue.init { what := 7, when := 0 }
        (-5) 3 100).2 = NO_ERROR) :=
  ⟨by decide,
   queueMessage_negative_delay_schedules_past MessageQueue.init
     { what := 7, when := 0 } (-5) 3 100 (by decide)⟩

/-- Claim C5: whenever the invalidate latch is pending at the start of a
delivery iteration, that iteration delivers the synthetic invalidate message
with `when` set to the current time and the latch cleared in the same locked
step — before any ordinary message, regardless of ordinary due times (the
latch is tested at line 76, ahead of the head-selection of lines 83–101) —
and the ordinary message list is left unchanged, so ordinary messages go out
in their original order on later deliveries. -/
theorem waitStep_invalidate_preempts (st : MessageQueue)
    (timeout timeoutTime now : nsecs_t) (h : st.mInvalidate = true) :
    MessageQueue.waitStep st timeout timeoutTime now =
      .deliver { st.mInvalidateMessage with when := now }
        { st with mInvalidate := false,
                  mInvalidateMessage := { st.mInvalidateMessage with when := now } } ∧
    ({ st with mInvalidate := false,
               mInvalidateMessage := { st.mInvalidateMessage with when := now } }
        : MessageQueue).mMessages = st.mMessages := by
  refine ⟨?_, rfl⟩
  simp [MessageQueue.waitStep, h]

/-- Witness for `waitStep_invalidate_preempts`: latch pending while an
ordinary message due at 0 is queued and `now = 100`; the synthetic message
(stamped `when = 100`) is delivered and the ordinary message stays queued. -/
theorem waitStep_invalidate_preempts_witness :
    ({ mMessages := [{ what := 7, when := 0 }], mInvalidate := true,
       mInvalidateMessage := { what := INVALIDATE, when := 0 } }
        : MessageQueue).mInvalidate = true ∧
    (MessageQueue.waitStep
        { mMessages := [{ what := 7, when := 0 }], mInvalidate := true,
          mInvalidateMessage := { what := INVALIDATE, when := 0 } } 10 110 100 =
      .deliver { what := INVALIDATE, when := 100 }
        { mMessages := [{ what := 7, when := 0 }], mInvalidate := false,
          mInvalidateMessage := { what := INVALIDATE, when := 100 } } ∧
    ({ mMessages := [{ what := 7, when := 0 }], mInvalidate := false,
       mInvalidateMessage := { what := INVALIDATE, when := 100 } }
        : MessageQueue).mMessages = [{ what := 7, when := 0 }]) :=
  ⟨rfl, waitStep_invalidate_preempts _ 10 110 100 rfl⟩

/-- Claim C6: `invalidate` coalesces.  For every `N ≥ 1`, `N` back-to-back
`invalidate` calls leave the same queue state as one; the next delivery
iteration then delivers the synthetic invalidate message once (clearing the
latch); and afterwards — the queue being otherwise empty — a further wait
iteration finds no pending invalidate and nothing to deliver (it reaches the
unbounded wait). -/
theorem invalidate_coalescing (st : MessageQueue) (N : Nat) (hN : 1 ≤ N)
    (hempty : st.mMessages = []) (timeout timeoutTime now : nsecs_t) :
    (fun s => (MessageQueue.invalidate s).1)^[N] st = (MessageQueue.invalidate st).1 ∧
    MessageQueue.waitStep ((fun s => (MessageQueue.invalidate s).1)^[N] st)
        timeout timeoutTime now =
      .deliver { st.mInvalidateMessage with when := now }
        { st with mInvalidate := false,
                  mInvalidateMessage := { st.mInvalidateMessage with when := now } } ∧
    (∀ t2 tt2 n2 : nsecs_t, MessageQueue.waitStep
        { st with mInvalidate := false,
                  mInvalidateMessage := { st.mInvalidateMessage with when := now } }
        t2 tt2 n2 =
      .sleepForever
        { st with mInvalidate := false,
                  mInvalidateMessage := { st.mInvalidateMessage with when := now } }) := by
  refine ⟨invalidate_state_iterate st N hN, ?_, ?_⟩
  · rw [invalidate_state_iterate st N hN]
    simp [MessageQueue.waitStep, MessageQueue.invalidate]
  · intro t2 tt2 n2
    simp [MessageQueue.waitStep, hempty]

/-- Witness for `invalidate_coalescing`: three consecutive `invalidate`
calls on a fresh queue, then one delivery at `now = 100`, then any further
wait iteration. -/
theorem invalidate_coalescing_witness :
    1 ≤ 3 ∧ MessageQueue.init.mMessages = [] ∧
    ((fun s => (MessageQueue.invalidate s).1)^[3] MessageQueue.init =
        (MessageQueue.invalidate MessageQueue.init).1 ∧
      MessageQueue.waitStep ((fun s => (MessageQueue.invalidate s).1)^[3] MessageQueue.init)
          10 110 100 =
        .deliver { what := INVALIDATE, when := 100 }
          { mMessages := [], mInvalidate := false,
            mInvalidateMessage := { what := INVALIDATE, when := 100 } } ∧
      (∀ t2 tt2 n2 : nsecs_t, MessageQueue.waitStep
          { mMessages := [], mInvalidate := false,
            mInvalidateMessage := { what := INVALIDATE, when := 100 } } t2 tt2 n2 =
        .sleepForever
          { mMessages := [], mInvalidate := false,
            mInvalidateMessage := { what := INVALIDATE, when := 100 } })) :=
  ⟨by decide, rfl, invalidate_coalescing MessageQueue.init 3 (by decide) rfl 10 110 100⟩

/-- Claim C7: `MessageList.insert` keeps the list sorted by `when` ascending
with stable ties.  For a list already sorted, the new node lands exactly
after the longest prefix of elements `e` with `e.when ≤ node.when` — that is,
immediately before the first element whose `when` the node's is strictly
below, and after all elements with equal `when` (at the very end when no
strictly later element exists) — and the result is again sorted. -/
theorem insert_sorted_stable (l : List MessageBase) (node : MessageBase)
    (hs : l.Pairwise (fun a b => a.when ≤ b.when)) :
    MessageList.insert node l =
      l.takeWhile (fun e => decide (e.when ≤ node.when)) ++
        node :: l.dropWhile (fun e => decide (e.when ≤ node.when)) ∧
    (MessageList.insert node l).Pairwise (fun a b => a.when ≤ b.when) :=
  ⟨MessageList.insert_eq_takeWhile node l, MessageList.insert_pairwise node l hs⟩

/-- Witness for `insert_sorted_stable`: inserting a message with `when = 2`
into a sorted list already holding two messages with `when = 2`; the new one
goes after both existing equals and before the element with `when = 3`. -/
theorem insert_sorted_stable_witness :
    ([{ what := 1, when := 1 }, { what := 2, when := 2 },
      { what := 3, when := 2 }, { what := 4, when := 3 }]
        : List MessageBase).Pairwise (fun a b => a.when ≤ b.when) ∧
    (MessageList.insert { what := 9, when := 2 }
        [{ what := 1, when := 1 }, { what := 2, when := 2 },
         { what := 3, when := 2 }, { what := 4, when := 3 }] =
      ([{ what := 1, when := 1 }, { what := 2, when := 2 },
        { what := 3, when := 2 }, { what := 4, when := 3 }]
          : List MessageBase).takeWhile
            (fun e => decide (e.when ≤ ({ what := 9, when := 2 } : MessageBase).when)) ++
        { what := 9, when := 2 } ::
          ([{ what := 1, when := 1 }, { what := 2, when := 2 },
            { what := 3, when := 2 }, { what := 4, when := 3 }]
              : List MessageBase).dropWhile
                (fun e => decide (e.when ≤ ({ what := 9, when := 2 } : MessageBase).when)) ∧
      (MessageList.insert { what := 9, when := 2 }
          [{ what := 1, when := 1 }, { what := 2, when := 2 },
           { what := 3, when := 2 }, { what := 4, when := 3 }]).Pairwise
        (fun a b => a.when ≤ b.when)) :=
  ⟨by decide, insert_sorted_stable _ { what := 9, when := 2 } (by decide)⟩

/-- Claim C8: an ordinary message is never delivered early.  If the latch is
clear and a wait iteration selects `result` for delivery, then the `now`
read under the mutex in that iteration satisfies `result.when ≤ now` (the
only ordinary delivery path is the `result->when <= now` branch of line 89).
Since `queueMessage` sets `when = postTime + relTime`, a message posted with
delay `d` is never delivered before `postTime + d`. -/
theorem waitStep_never_delivers_early (st : MessageQueue)
    (timeout timeoutTime now : nsecs_t) (result : MessageBase) (st' : MessageQueue)
    (hinv : st.mInvalidate = false)
    (hdel : MessageQueue.waitStep st timeout timeoutTime now = .deliver result st') :
    result.when ≤ now := by
  simp [MessageQueue.waitStep, hinv] at hdel
  rcases hm : st.mMessages with _ | ⟨r, rest⟩
  · rw [hm] at hdel; simp at hdel
  · rw [hm] at hdel
    dsimp only at hdel
    by_cases hr : r.when ≤ now
    · rw [if_pos hr] at hdel
      cases hdel
      exact hr
    · rw [if_neg hr] at hdel
      exfalso
      split_ifs at hdel

/-- Witness for `waitStep_never_delivers_early`: a queue holding one message
due at 50, latch clear, `now = 100`; the message is delivered and indeed
`50 ≤ 100`. -/
theorem waitStep_never_delivers_early_witness :
    ({ mMessages := [{ what := 7, when := 50 }], mInvalidate := false,
       mInvalidateMessage := { what := INVALIDATE, when := 0 } }
        : MessageQueue).mInvalidate = false ∧
    MessageQueue.waitStep
        { mMessages := [{ what := 7, when := 50 }], mInvalidate := false,
          mInvalidateMessage := { what := INVALIDATE, when := 0 } } 10 110 100 =
      .deliver { what := 7, when := 50 }
        { mMessages := [], mInvalidate := false,
          mInvalidateMessage := { what := INVALIDATE, when := 0 } } ∧
    ({ what := 7, when := 50 } : MessageBase).when ≤ 100 :=
  ⟨rfl, rfl,
   waitStep_never_delivers_early
     { mMessages := [{ what := 7, when := 50 }], mInvalidate := false,
       mInvalidateMessage := { what := INVALIDATE, when := 0 } }
     10 110 100 { what := 7, when := 50 }
     { mMessages := [], mInvalidate := false,
       mInvalidateMessage := { what := INVALIDATE, when := 0 } }
     rfl rfl⟩

/-- Claim C3, counterexample: in the re-dispatch scenario, a
`waitMessage(10)` call entered at time 100 (so a once-computed deadline would
be 110) still delivers to its caller the message due at 206, selected at time
207 — the outer loop recomputed `timeoutTime` at its second round (line 69 is
inside the `do` loop), extending the overall deadline to 210.  The variant
`waitMessageDeadlineOnce`, which follows the claim's words and computes the
deadline exactly once at entry, instead reports a timeout on the same
inputs. -/
theorem waitMessage_deadline_recomputed_cex :
    MessageQueue.waitMessage redispatchHandler redispatchClock 10 5
        redispatchQueue 0 3 =
      some (some { what := 8, when := 206 },
        { mMessages := [], mInvalidate := false,
          mInvalidateMessage := { what := INVALIDATE, when := 0 } }, 5) ∧
    redispatchClock 0 + 10 < (206 : nsecs_t) ∧
    MessageQueue.waitMessageDeadlineOnce redispatchHandler redispatchClock 10 5
        redispatchQueue 0 3 =
      some (none,
        { mMessages := [{ what := 8, when := 206 }], mInvalidate := false,
          mInvalidateMessage := { what := INVALIDATE, when := 0 } }, 3) := by
  refine ⟨by decide, by decide, by decide⟩

/-- Claim C3 as amended: the deadline `now + timeout` is recomputed at the
start of every outer re-dispatch iteration, because line 69 sits inside the
`do … while (again)` loop.  Formally: when the inner loop of one outer round
(run against the deadline `clock k + timeout` of that round's entry) delivers
a message whose handler returns `again = true`, the rest of the call is
exactly a fresh `waitMessage` call from the new state and clock position —
whose own first step recomputes the deadline from the clock at re-entry.
Re-dispatch can therefore extend the overall deadline of the call. -/
theorem waitMessage_redispatch_restarts (handler : MessageBase → Bool)
    (clock : Nat → nsecs_t) (timeout : nsecs_t) (innerFuel fuel k k' : Nat)
    (st st' : MessageQueue) (result : MessageBase)
    (hinner : MessageQueue.waitInner timeout (clock k + timeout) clock innerFuel
        st (k+1) = some (some result, st', k'))
    (hagain : handler result = true) :
    MessageQueue.waitMessage handler clock timeout innerFuel st k (fuel+1) =
      MessageQueue.waitMessage handler clock timeout innerFuel st' k' fuel := by
  simp [MessageQueue.waitMessage, hinner, hagain]

/-- Witness for `waitMessage_redispatch_restarts`: the first round of the
re-dispatch scenario delivers the message due at 0, whose handler returns
`again = true`; the rest of the call is a fresh `waitMessage` from clock
position 2. -/
theorem waitMessage_redispatch_restarts_witness :
    MessageQueue.waitInner 10 (redispatchClock 0 + 10) redispatchClock 5
        redispatchQueue 1 =
      some (some { what := 7, when := 0 },
        { mMessages := [{ what := 8, when := 206 }], mInvalidate := false,
          mInvalidateMessage := { what := INVALIDATE, when := 0 } }, 2) ∧
    redispatchHandler { what := 7, when := 0 } = true ∧
    MessageQueue.waitMessage redispatchHandler redispatchClock 10 5
        redispatchQueue 0 3 =
      MessageQueue.waitMessage redispatchHandler redispatchClock 10 5
        { mMessages := [{ what := 8, when := 206 }], mInvalidate := false,
          mInvalidateMessage := { what := INVALIDATE, when := 0 } } 2 2 :=
  ⟨by decide, rfl,
   waitMessage_redispatch_restarts redispatchHandler redispatchClock 10 5 2 0 2
     redispatchQueue
     { mMessages := [{ what := 8, when := 206 }], mInvalidate := false,
       mInvalidateMessage := { what := INVALIDATE, when := 0 } }
     { what := 7, when := 0 } (by decide) rfl⟩

/-- Claim C9: a `waitMessage` call never returns a message whose handler
returned `again = true`.  Any message value actually returned to the caller
is one the call delivered and whose handler returned `false`, in which case
it is handed back unchanged (the only `return result` with `result` non-null
follows `again == false`); deliveries whose handler returned `true` drop the
reference and re-enter the loop, and the only other completed outcome is the
null timeout return. -/
theorem waitMessage_returns_only_false_handler (handler : MessageBase → Bool)
    (clock : Nat → nsecs_t) (timeout : nsecs_t) (innerFuel : Nat) :
    ∀ (fuel : Nat) (st : MessageQueue) (k k' : Nat) (result : MessageBase)
      (st' : MessageQueue),
      MessageQueue.waitMessage handler clock timeout innerFuel st k fuel =
        some (some result, st', k') →
      handler result = false := by
  intro fuel
  induction fuel with
  | zero =>
    intro st k k' result st' h
    simp [MessageQueue.waitMessage] at h
  | succ n ih =>
    intro st k k' result st' h
    rw [MessageQueue.waitMessage] at h
    rcases hw : MessageQueue.waitInner timeout (clock k + timeout) clock innerFuel
        st (k+1) with _ | ⟨_ | m, st'', k''⟩
    · rw [hw] at h; simp at h
    · rw [hw] at h; simp at h
    · rw [hw] at h
      dsimp only at h
      by_cases hh : handler m
      · rw [if_pos hh] at h
        exact ih st'' k'' k' result st' h
      · rw [if_neg hh] at h
        simp at h
        obtain ⟨h1, -, -⟩ := h
        subst h1
        exact Bool.not_eq_true _ ▸ eq_false_of_ne_true hh

/-- Witness for `waitMessage_returns_only_false_handler`: the re-dispatch
scenario's call returns the message tagged 8, and its handler indeed
returns `false`. -/
theorem waitMessage_returns_only_false_handler_witness :
    MessageQueue.waitMessage redispatchHandler redispatchClock 10 5
        redispatchQueue 0 3 =
      some (some { what := 8, when := 206 },
        { mMessages := [], mInvalidate := false,
          mInvalidateMessage := { what := INVALIDATE, when := 0 } }, 5) ∧
    redispatchHandler { what := 8, when := 206 } = false :=
  ⟨by decide,
   waitMessage_returns_only_false_handler redispatchHandler redispatchClock 10 5
     3 redispatchQueue 0 5 { what := 8, when := 206 }
     { mMessages := [], mInvalidate := false,
       mInvalidateMessage := { what := INVALIDATE, when := 0 } }
     (by decide)⟩

/-- Claim C10: `postMessage` and `invalidate` are infallible — for every
queue state, message, relative delay (negative included), flags value and
clock reading, both return exactly `NO_ERROR`; no other status is ever
produced. -/
theorem postMessage_invalidate_always_no_error (st : MessageQueue)
    (message : MessageBase) (relTime : nsecs_t) (flags : Nat) (now : nsecs_t) :
    (MessageQueue.postMessage st message relTime flags now).2 = NO_ERROR ∧
    (MessageQueue.invalidate st).2 = NO_ERROR :=
  ⟨rfl, rfl⟩

end android
